import Mathlib

set_option maxRecDepth 8000

/-!
Shallow embedding of the thud-ffi binding layer (src/lib.rs) together with a
model of the `thud` engine crate that the bindings call into.  The engine crate
is not part of this repository's sources, so its components (`Piece`, `Player`,
`EndState`, `Direction`, `Coord`, `Board`, `Thud` and their operations) are
modelled from the specification; every such definition carries a doc comment
starting `Modelled from the spec:`.  Everything else is translated directly
from src/lib.rs.  Raw pointers are modelled as `Option` values (`none` = null);
the C `targets` array of `thud_troll_cap` is modelled as a function from index
to value.
-/

/-- Modelled from the spec: the `Piece` enum of the missing `thud` engine crate —
one of Empty, Dwarf, Troll, Thudstone (spec section 3). -/
inductive Piece
  | Empty
  | Dwarf
  | Troll
  | Thudstone
  deriving DecidableEq

/-- Modelled from the spec: the `Player` enum of the missing engine crate (spec section 3). -/
inductive Player
  | Dwarf
  | Troll
  deriving DecidableEq

/-- Modelled from the spec: the `EndState` enum of the missing engine crate (spec section 4.4). -/
inductive EndState
  | Won (p : Player)
  | Draw
  deriving DecidableEq

/-- Modelled from the spec: the engine error kinds of the missing engine crate (spec section 7). -/
inductive ThudError
  | OutOfBounds
  | InvalidDirection
  | WrongTurn
  | IllegalMove
  | GameOver
  deriving DecidableEq

/-- Modelled from the spec: the `Direction` enum of the missing engine crate —
the 8 compass directions, listed clockwise starting from Right (spec section 3). -/
inductive Direction
  | Right
  | DownRight
  | Down
  | DownLeft
  | Left
  | UpLeft
  | Up
  | UpRight
  deriving DecidableEq

def allDirections : List Direction :=
  [.Right, .DownRight, .Down, .DownLeft, .Left, .UpLeft, .Up, .UpRight]

/-- Modelled from the spec: `Direction::from_num` of the missing engine crate —
clockwise ordinal decoding with Right = 0; an ordinal outside 0..7 is an
`InvalidDirection` error (spec sections 6 and 7). -/
def Direction.from_num : Nat → Except ThudError Direction
  | 0 => .ok .Right
  | 1 => .ok .DownRight
  | 2 => .ok .Down
  | 3 => .ok .DownLeft
  | 4 => .ok .Left
  | 5 => .ok .UpLeft
  | 6 => .ok .Up
  | 7 => .ok .UpRight
  | _ => .error .InvalidDirection

/-- The total clockwise ordinal-to-direction table, for stating what
`Direction.from_num` returns on the valid ordinals 0..7. -/
def clockwiseDir : Nat → Direction
  | 0 => .Right
  | 1 => .DownRight
  | 2 => .Down
  | 3 => .DownLeft
  | 4 => .Left
  | 5 => .UpLeft
  | 6 => .Up
  | _ => .UpRight

/-- Modelled from the spec: the unit grid offset of each direction, x growing
rightwards and y downwards, clockwise from Right (spec section 3). -/
def Direction.offset : Direction → Int × Int
  | .Right => (1, 0)
  | .DownRight => (1, 1)
  | .Down => (0, 1)
  | .DownLeft => (-1, 1)
  | .Left => (-1, 0)
  | .UpLeft => (-1, -1)
  | .Up => (0, -1)
  | .UpRight => (1, -1)

/-- Modelled from the spec: membership of the playable octagon — the 15 by 15
bounding square with the four corner triangles of side 5 cut off, the standard
Thud board (spec sections 3 and 9 and the glossary). -/
def inOctagon (x y : Nat) : Bool :=
  x ≤ 14 && y ≤ 14 && 5 ≤ x + y && x + y ≤ 23 && x ≤ y + 9 && y ≤ x + 9

/-- Modelled from the spec: `Coord` of the missing engine crate, a validated
octagon position (spec sections 3 and 4.1). -/
abbrev Coord := { p : Nat × Nat // inOctagon p.1 p.2 = true }

/-- Modelled from the spec: `Coord::zero_based` of the missing engine crate —
construction from two zero-based indices, failing outside the octagon
(spec section 4.1). -/
def Coord.zero_based (x y : Nat) : Option Coord :=
  if h : inOctagon x y = true then some ⟨(x, y), h⟩ else none

/-- Modelled from the spec: one king-step from a coordinate along a direction,
`none` when the step leaves the octagon. -/
def Coord.step (c : Coord) (d : Direction) : Option Coord :=
  let nx : Int := (c.val.1 : Int) + d.offset.1
  let ny : Int := (c.val.2 : Int) + d.offset.2
  if h : 0 ≤ nx ∧ 0 ≤ ny ∧ inOctagon nx.toNat ny.toNat = true then
    some ⟨(nx.toNat, ny.toNat), h.2.2⟩
  else none

/-- All valid coordinates of the octagon, row by row. -/
def allCoords : List Coord :=
  (List.range 15).flatMap fun x => (List.range 15).filterMap fun y => Coord.zero_based x y

/-- Modelled from the spec: `Board` of the missing engine crate — a dense mapping
from valid coordinates to pieces (spec sections 3, 4.2 and 9). -/
structure Board where
  piece_at : Coord → Piece

/-- Modelled from the spec: the board-internal placement primitive, used only by
the move and capture rules (spec section 4.2). -/
def Board.set (b : Board) (c : Coord) (p : Piece) : Board :=
  ⟨fun c2 => if c2 = c then p else b.piece_at c2⟩

/-- Modelled from the spec: `Board::full_raw` of the missing engine crate — the
full bounding-square snapshot; cells outside the octagon are reported Empty
(spec section 4.2). -/
def Board.full_raw (b : Board) : List (List Piece) :=
  (List.range 15).map fun x => (List.range 15).map fun y =>
    match Coord.zero_based x y with
    | some c => b.piece_at c
    | none => .Empty

/-- Modelled from the spec: the cells forming the octagon's edge ring. -/
def onEdge (x y : Nat) : Bool :=
  x = 0 || y = 0 || x = 14 || y = 14 || x + y = 5 || x + y = 23 || x = y + 9 || y = x + 9

/-- Modelled from the spec: the canonical starting layout — the Thudstone on the
centre cell (7,7), the 8 Trolls on the ring around it, and the 32 Dwarfs on the
octagon's edge ring except the four edge midpoints (spec section 3, standard
Thud allotment of 32 Dwarfs, 8 Trolls, 1 Thudstone). -/
def startPiece (x y : Nat) : Piece :=
  if x = 7 && y = 7 then .Thudstone
  else if 6 ≤ x && x ≤ 8 && 6 ≤ y && y ≤ 8 then .Troll
  else if onEdge x y && !(x = 7 && (y = 0 || y = 14)) && !(y = 7 && (x = 0 || x = 14)) then .Dwarf
  else .Empty

/-- Modelled from the spec: the `Thud` game state of the missing engine crate —
board, side to move (`none` once ended), end-state (`none` while in progress)
and the cumulative (Dwarf, Troll) capture scores (spec section 3). -/
structure Thud where
  board : Board
  cur : Option Player
  endState : Option EndState
  dwarfScore : Nat
  trollScore : Nat

/-- Modelled from the spec: `Thud::new` of the missing engine crate — a game in
the canonical starting layout with Dwarf to move first (spec section 3). -/
def Thud.new : Thud :=
  { board := ⟨fun c => startPiece c.val.1 c.val.2⟩
    cur := some .Dwarf
    endState := none
    dwarfScore := 0
    trollScore := 0 }

/-- Modelled from the spec: `Thud::turn` — the side to move, `none` once ended
(spec section 4.4). -/
def Thud.turn (t : Thud) : Option Player := t.cur

/-- Modelled from the spec: `Thud::winner` — the terminal outcome, `none` while
the game is in progress (spec section 4.4). -/
def Thud.winner (t : Thud) : Option EndState := t.endState

/-- Modelled from the spec: `Thud::score` — the cumulative (Dwarf, Troll)
capture pair (spec section 4.4). -/
def Thud.score (t : Thud) : Nat × Nat := (t.dwarfScore, t.trollScore)

/-- Cells strictly beyond `c` along `d`, nearest first, up to the octagon edge;
the fuel 15 bounds the walk by the board width. -/
def rayAux (d : Direction) : Coord → Nat → List Coord
  | _, 0 => []
  | c, n + 1 =>
    match Coord.step c d with
    | some c2 => c2 :: rayAux d c2 n
    | none => []

def rayFrom (c : Coord) (d : Direction) : List Coord := rayAux d c 15

/-- The cells strictly between `src` and `dest` when `dest` lies on the ray from
`src` along `d`; `none` when it does not. -/
def betweenOn (src dest : Coord) (d : Direction) : Option (List Coord) :=
  match (rayFrom src d).findIdx? (fun c => c.val == dest.val) with
  | some k => some ((rayFrom src d).take k)
  | none => none

/-- Modelled from the spec: Dwarf slide-move legality of the missing engine
crate — `src` holds a Dwarf, `dest` is empty, the two are collinear along one of
the 8 directions, and every strictly intermediate cell is empty (spec section 4.3). -/
def slideLegal (b : Board) (src dest : Coord) : Bool :=
  b.piece_at src == .Dwarf && b.piece_at dest == .Empty &&
    allDirections.any fun d =>
      match betweenOn src dest d with
      | some mids => mids.all fun c => b.piece_at c == .Empty
      | none => false

/-- Modelled from the spec: Troll step legality of the missing engine crate —
`src` holds a Troll, `dest` is empty and exactly one king-step away (spec
section 4.3). -/
def stepLegal (b : Board) (src dest : Coord) : Bool :=
  b.piece_at src == .Troll && b.piece_at dest == .Empty &&
    allDirections.any fun d =>
      match Coord.step src d with
      | some c => c.val == dest.val
      | none => false

/-- Modelled from the spec: whether the cell one step from `src` in direction `d`
holds a Troll (spec section 4.3). -/
def pointsAtTroll (b : Board) (src : Coord) (d : Direction) : Bool :=
  match Coord.step src d with
  | some c => b.piece_at c == .Troll
  | none => false

/-- The octagon cells adjacent to `c`. -/
def neighbors (c : Coord) : List Coord :=
  allDirections.filterMap fun d => Coord.step c d

/-- The number of pieces of a given kind on the board. -/
def countPiece (b : Board) (p : Piece) : Nat :=
  allCoords.countP fun c => b.piece_at c == p

def Player.other : Player → Player
  | .Dwarf => .Troll
  | .Troll => .Dwarf

/-- Modelled from the spec: whether a side has any legal action in the position —
for Dwarf a slide or a stationary capture, for Troll a step; a direct
enumeration of the three action families (spec section 4.4). -/
def hasAction (b : Board) : Player → Bool
  | .Dwarf => allCoords.any fun src =>
      b.piece_at src == .Dwarf &&
        (allCoords.any (fun dest => slideLegal b src dest) ||
          allDirections.any (fun d => pointsAtTroll b src d))
  | .Troll => allCoords.any fun src =>
      b.piece_at src == .Troll &&
        allDirections.any fun d =>
          match Coord.step src d with
          | some c => b.piece_at c == .Empty
          | none => false

/-- Modelled from the spec: end-state re-evaluation after a successful mutating
operation (spec section 4.4) — a side with no pieces of its own loses; an
immobilised side to move loses, a double immobilisation is a draw; otherwise the
game stays in progress with `next` to move. -/
def evalEnd (b : Board) (next : Player) : Option EndState × Option Player :=
  if countPiece b .Dwarf = 0 then (some (.Won .Troll), none)
  else if countPiece b .Troll = 0 then (some (.Won .Dwarf), none)
  else if hasAction b next then (none, some next)
  else if hasAction b (Player.other next) then (some (.Won (Player.other next)), none)
  else (some .Draw, none)

/-- Modelled from the spec: assembly of the post-operation state — the new board
and scores, then turn handover and end-state re-evaluation (spec sections 4.3
and 4.4). -/
def finish (b : Board) (ds ts : Nat) (next : Player) : Thud :=
  { board := b
    cur := (evalEnd b next).2
    endState := (evalEnd b next).1
    dwarfScore := ds
    trollScore := ts }

/-- Modelled from the spec: `Thud::move_piece` of the missing engine crate, the
Dwarf slide-move (spec section 4.3) — `GameOver` once ended, `WrongTurn` unless
Dwarf is to move, `IllegalMove` unless the slide is legal; on success the Dwarf
relocates with no capture and the turn passes.  The pair mirrors the Rust
`&mut self` signature: result together with the state after the call. -/
def Thud.move_piece (t : Thud) (src dest : Coord) : Except ThudError Unit × Thud :=
  if t.endState.isSome then (.error .GameOver, t)
  else if t.cur ≠ some .Dwarf then (.error .WrongTurn, t)
  else if slideLegal t.board src dest then
    (.ok (), finish ((t.board.set src .Empty).set dest .Dwarf) t.dwarfScore t.trollScore .Troll)
  else (.error .IllegalMove, t)

/-- Modelled from the spec: `Thud::attack` of the missing engine crate, the Troll
step-and-smash (spec section 4.3) — after a legal one-step relocation, every
Dwarf adjacent to the new position is captured and credited to the Troll score. -/
def Thud.attack (t : Thud) (src dest : Coord) : Except ThudError Unit × Thud :=
  if t.endState.isSome then (.error .GameOver, t)
  else if t.cur ≠ some .Troll then (.error .WrongTurn, t)
  else if stepLegal t.board src dest then
    let b1 := (t.board.set src .Empty).set dest .Troll
    let victims := (neighbors dest).filter fun c => b1.piece_at c == .Dwarf
    let b2 := victims.foldl (fun bb c => bb.set c .Empty) b1
    (.ok (), finish b2 t.dwarfScore (t.trollScore + victims.length) .Dwarf)
  else (.error .IllegalMove, t)

/-- Modelled from the spec: `Thud::troll_cap` of the missing engine crate, the
Dwarf stationary multi-capture (spec sections 4.3 and 9) — the whole batch is
validated first (the set must be non-empty and every requested direction must
point at an adjacent Troll) and only then applied, so that an illegal batch
leaves the state untouched; on success all named Trolls are removed at once and
credited to the Dwarf score. -/
def Thud.troll_cap (t : Thud) (src : Coord) (dirs : List Direction) :
    Except ThudError Unit × Thud :=
  if t.endState.isSome then (.error .GameOver, t)
  else if t.cur ≠ some .Dwarf then (.error .WrongTurn, t)
  else if t.board.piece_at src ≠ .Dwarf then (.error .IllegalMove, t)
  else if dirs.isEmpty then (.error .IllegalMove, t)
  else if dirs.all (fun d => pointsAtTroll t.board src d) then
    let cells := (dirs.filterMap fun d => Coord.step src d).dedup
    let b2 := cells.foldl (fun bb c => bb.set c .Empty) t.board
    (.ok (), finish b2 (t.dwarfScore + cells.length) t.trollScore .Troll)
  else (.error .IllegalMove, t)

/-- Integer encoding of a piece, translated from `piece_to_int` in src/lib.rs. -/
def piece_to_int : Piece → Nat
  | .Empty => 0
  | .Dwarf => 1
  | .Troll => 2
  | .Thudstone => 3

/-- Translated from `thud_new` in src/lib.rs: a fresh boxed game. -/
def thud_new : Thud := Thud.new

/-- Translated from `coord_new` in src/lib.rs: `Coord::zero_based`, with the
null-pointer failure return modelled as `none`. -/
def coord_new (x y : Nat) : Option Coord := Coord.zero_based x y

/-- Translated from `thud_move` in src/lib.rs: -1 if any pointer is null, 0 on
success, and -2 on every engine error (the catch-all `_` arm). -/
def thud_move : Option Thud → Option Coord → Option Coord → Int
  | some t, some s, some d =>
    match (Thud.move_piece t s d).1 with
    | .ok _ => 0
    | .error _ => -2
  | _, _, _ => -1

/-- Translated from `thud_attack` in src/lib.rs: -1 if any pointer is null, 0 on
success, and -2 on every engine error (the catch-all `_` arm). -/
def thud_attack : Option Thud → Option Coord → Option Coord → Int
  | some t, some s, some d =>
    match (Thud.attack t s d).1 with
    | .ok _ => 0
    | .error _ => -2
  | _, _, _ => -1

/-- Translated from `thud_get_turn` in src/lib.rs. -/
def thud_get_turn : Option Thud → Int
  | none => -1
  | some t =>
    match Thud.turn t with
    | some .Dwarf => 0
    | some .Troll => 1
    | _ => 2

/-- Translated from `thud_get_winner` in src/lib.rs. -/
def thud_get_winner : Option Thud → Int
  | none => -1
  | some t =>
    match Thud.winner t with
    | some (.Won .Dwarf) => 0
    | some (.Won .Troll) => 1
    | some .Draw => 2
    | _ => 3

/-- Translated from `thud_get_score` in src/lib.rs: the (Dwarf, Troll) pair, or
null (`none`) for a null argument. -/
def thud_get_score : Option Thud → Option (Int × Int)
  | none => none
  | some t => some (((Thud.score t).1 : Int), ((Thud.score t).2 : Int))

/-- Translated from the direction-building loop of `thud_troll_cap` in
src/lib.rs: for `i` in `0..8`, if `targets[i] == 1` push `Direction::from_num(i)`
onto the list, returning the error (`-3` at the call site) as soon as one
conversion fails.  `i` is the next index, the second argument the number of
iterations left. -/
def build_attack_dirs_aux (targets : Nat → Nat) : Nat → Nat → Except ThudError (List Direction)
  | _, 0 => .ok []
  | i, n + 1 =>
    if targets i = 1 then
      match Direction.from_num i with
      | .ok d =>
        match build_attack_dirs_aux targets (i + 1) n with
        | .ok rest => .ok (d :: rest)
        | .error e => .error e
      | .error e => .error e
    else build_attack_dirs_aux targets (i + 1) n

def build_attack_dirs (targets : Nat → Nat) : Except ThudError (List Direction) :=
  build_attack_dirs_aux targets 0 8

/-- Translated from `thud_troll_cap` in src/lib.rs: null checks, then the flag
loop over the first 8 slots of the array, then `Thud::troll_cap`; -3 exactly
when the loop hits an invalid ordinal, -2 on an engine error, 0 on success.
The C array behind `targets_raw` is modelled as a function from index to value. -/
def thud_troll_cap : Option Thud → Option Coord → Option (Nat → Nat) → Int
  | some t, some s, some targets =>
    (match build_attack_dirs targets with
     | .error _ => -3
     | .ok dirs =>
       match (Thud.troll_cap t s dirs).1 with
       | .ok _ => 0
       | .error _ => -2)
  | _, _, _ => -1

/-- Translated from `thud_get_board` in src/lib.rs: the 15 by 15 nested grid of
`piece_to_int` codes built from `Thud::board().full_raw()`, or null (`none`) for
a null argument. -/
def thud_get_board : Option Thud → Option (List (List Nat))
  | none => none
  | some t => some ((t.board.full_raw).map fun row => row.map piece_to_int)

/-- The grid value built by `thud_get_board` for a live game. -/
def boardGrid (t : Thud) : List (List Nat) :=
  (t.board.full_raw).map fun row => row.map piece_to_int

/-- Heap model of a call to `thud_get_turn` through a raw pointer: the slot holds
the pointee (`none` = null or freed).  src/lib.rs calls `Box::from_raw` on the
pointer and lets the box go out of scope at the end of the function, so the
call frees a non-null pointee. -/
def thud_get_turn_alloc (slot : Option Thud) : Int × Option Thud :=
  match slot with
  | none => (-1, none)
  | some t => (thud_get_turn (some t), none)

/-- Heap model of a call to `thud_get_winner`, as for `thud_get_turn_alloc`:
`Box::from_raw` plus the implicit drop frees the pointee. -/
def thud_get_winner_alloc (slot : Option Thud) : Int × Option Thud :=
  match slot with
  | none => (-1, none)
  | some t => (thud_get_winner (some t), none)

/-- Heap model of a call to `thud_get_score`, as for `thud_get_turn_alloc`. -/
def thud_get_score_alloc (slot : Option Thud) : Option (Int × Int) × Option Thud :=
  match slot with
  | none => (none, none)
  | some t => (thud_get_score (some t), none)

/-- Heap model of a call to `thud_get_board`, as for `thud_get_turn_alloc`. -/
def thud_get_board_alloc (slot : Option Thud) : Option (List (List Nat)) × Option Thud :=
  match slot with
  | none => (none, none)
  | some t => (thud_get_board (some t), none)

/-- The playable region exactly as claim C5 words it: inside the 15 by 15
bounding square and not on one of the four cut-off corner triangles. -/
abbrev cutCorner (x y : Nat) : Prop :=
  x + y < 5 ∨ 23 < x + y ∨ y + 9 < x ∨ x + 9 < y

/-- One external mutating request, for stating properties of call sequences. -/
inductive Op
  | move (src dest : Coord)
  | attack (src dest : Coord)
  | cap (src : Coord) (dirs : List Direction)

/-- The state after one mutating FFI request: the engine is called and the
post-call state kept, whether or not the operation succeeded. -/
def applyOp (t : Thud) : Op → Thud
  | .move s d => (Thud.move_piece t s d).2
  | .attack s d => (Thud.attack t s d).2
  | .cap s dirs => (Thud.troll_cap t s dirs).2

def applyOps (t : Thud) (ops : List Op) : Thud := ops.foldl applyOp t

/-- An empty octagon cell of the starting layout, (2,5). -/
def cEmptyA : Coord := ⟨(2, 5), by decide⟩

/-- An empty octagon cell of the starting layout, (3,5). -/
def cEmptyB : Coord := ⟨(3, 5), by decide⟩

/-- A starting Troll cell, (6,6). -/
def cTrollStart : Coord := ⟨(6, 6), by decide⟩

/-- A starting Dwarf cell, (0,6). -/
def cDwarfStart : Coord := ⟨(0, 6), by decide⟩

/-- The centre cell of the board, (7,7). -/
def cCenter : Coord := ⟨(7, 7), by decide⟩

/-- A hand-built mid-game board: a Dwarf on (7,3) with a Troll on its Left
neighbour (6,3) and nothing on its Right neighbour, plus the Thudstone. -/
def capBoard : Board :=
  ⟨fun c =>
    if c.val = (7, 3) then .Dwarf
    else if c.val = (6, 3) then .Troll
    else if c.val = (7, 7) then .Thudstone
    else .Empty⟩

/-- A mid-game state with Dwarf to move on `capBoard`. -/
def capState : Thud :=
  { board := capBoard
    cur := some .Dwarf
    endState := none
    dwarfScore := 0
    trollScore := 0 }

/-- The Dwarf cell (7,3) of `capBoard`. -/
def cCapSrc : Coord := ⟨(7, 3), by decide⟩

theorem from_num_valid (i : Nat) (h : i < 8) : Direction.from_num i = .ok (clockwiseDir i) := by
  interval_cases i <;> rfl

theorem build_attack_dirs_aux_ok (targets : Nat → Nat) :
    ∀ n i, i + n ≤ 8 →
      build_attack_dirs_aux targets i n =
        .ok ((List.range' i n).filterMap fun j =>
          if targets j = 1 then some (clockwiseDir j) else none) := by
  intro n
  induction n with
  | zero => intro i _; rfl
  | succ n ih =>
    intro i h
    rw [List.range'_succ]
    simp only [build_attack_dirs_aux, List.filterMap_cons]
    by_cases htg : targets i = 1
    · rw [if_pos htg, from_num_valid i (by omega), ih (i + 1) (by omega), if_pos htg]
    · rw [if_neg htg, ih (i + 1) (by omega), if_neg htg]

theorem build_attack_dirs_ok (targets : Nat → Nat) :
    build_attack_dirs targets =
      .ok ((List.range 8).filterMap fun j =>
        if targets j = 1 then some (clockwiseDir j) else none) := by
  rw [build_attack_dirs, build_attack_dirs_aux_ok targets 8 0 (by omega), List.range_eq_range']

theorem boardGrid_cell (t : Thud) (x y : Nat) (hx : x < 15) (hy : y < 15) :
    ((boardGrid t).getD x []).getD y 0 =
      (match Coord.zero_based x y with
       | some c => piece_to_int (t.board.piece_at c)
       | none => 0) := by
  simp only [boardGrid, Board.full_raw, List.map_map, List.getD_eq_getElem?_getD,
    List.getElem?_map, List.getElem?_range hx, List.getElem?_range hy,
    Option.map_some', Option.getD_some, Function.comp_apply]
  cases h : Coord.zero_based x y <;> simp [h, piece_to_int]

theorem applyOp_score_mono (t : Thud) (op : Op) :
    t.dwarfScore ≤ (applyOp t op).dwarfScore ∧ t.trollScore ≤ (applyOp t op).trollScore := by
  cases op with
  | move s d =>
    simp only [applyOp]
    unfold Thud.move_piece
    repeat' split
    all_goals simp [finish]
  | attack s d =>
    simp only [applyOp]
    unfold Thud.attack
    repeat' split
    all_goals simp [finish]
  | cap s dirs =>
    simp only [applyOp]
    unfold Thud.troll_cap
    repeat' split
    all_goals simp [finish]

/-- Claim C1, counterexample: the targets array whose first slot holds the
malformed direction ordinal 9 (outside the 8 valid slots) is not reported as a
format error — the call returns -2 (a rules failure of the resulting empty
batch), never -3. -/
theorem troll_cap_malformed_slot_not_rejected :
    thud_troll_cap (some thud_new) (some cDwarfStart)
      (some fun i => if i = 0 then 9 else 0) = -2 := rfl

/-- Claim C1, amended: the 8 slots of the targets array of `thud_troll_cap` are
indexed by direction ordinal (Right = 0, increasing clockwise) but are read as
selection flags, not ordinals: a slot value other than 1 merely deselects its
direction — replacing every non-1 value by 0 gives the same result — and no
input array is ever reported as -3 (InvalidDirection), because
`Direction::from_num` is only applied to the loop indices. -/
theorem troll_cap_slots_are_selection_flags (t : Thud) (s : Coord) (targets : Nat → Nat) :
    thud_troll_cap (some t) (some s) (some targets) ≠ -3 ∧
    thud_troll_cap (some t) (some s) (some targets) =
      thud_troll_cap (some t) (some s) (some fun i => if targets i = 1 then 1 else 0) := by
  have hb := build_attack_dirs_ok targets
  have hb2 := build_attack_dirs_ok (fun i => if targets i = 1 then 1 else 0)
  have hsame : ((List.range 8).filterMap fun j =>
        if (if targets j = 1 then 1 else 0) = 1 then some (clockwiseDir j) else none)
      = (List.range 8).filterMap fun j =>
        if targets j = 1 then some (clockwiseDir j) else none := by
    apply List.filterMap_congr
    intro i _
    by_cases h : targets i = 1 <;> simp [h]
  constructor
  · simp only [thud_troll_cap, hb]
    split <;> simp
  · simp only [thud_troll_cap, hb, hb2, hsame]

/-- Claim C2, counterexample: a WrongTurn failure (a Troll attack attempted while
Dwarf is to move) and an IllegalMove failure (a slide from an empty cell) are
surfaced to the caller as the very same return code -2 — the kinds are not
distinguishable at the FFI boundary. -/
theorem wrongturn_and_illegalmove_same_code :
    (Thud.attack thud_new cTrollStart cEmptyA).1 = .error .WrongTurn ∧
    (Thud.move_piece thud_new cEmptyA cEmptyB).1 = .error .IllegalMove ∧
    thud_attack (some thud_new) (some cTrollStart) (some cEmptyA) = -2 ∧
    thud_move (some thud_new) (some cEmptyA) (some cEmptyB) = -2 :=
  ⟨rfl, rfl, rfl, rfl⟩

/-- Claim C2, amended: every failed mutating operation is surfaced to the caller
as a failure code, but the failure kind is not: whatever engine error —
WrongTurn, IllegalMove or GameOver — a slide-move, step-and-smash or stationary
multi-capture fails with, the binding returns the single catch-all code -2. -/
theorem mutating_failures_collapse_to_code (t : Thud) (s d : Coord) (e : ThudError)
    (targets : Nat → Nat) (dirs : List Direction) :
    ((Thud.move_piece t s d).1 = .error e → thud_move (some t) (some s) (some d) = -2) ∧
    ((Thud.attack t s d).1 = .error e → thud_attack (some t) (some s) (some d) = -2) ∧
    (build_attack_dirs targets = .ok dirs → (Thud.troll_cap t s dirs).1 = .error e →
      thud_troll_cap (some t) (some s) (some targets) = -2) := by
  refine ⟨fun h => ?_, fun h => ?_, fun hb h => ?_⟩
  · simp [thud_move, h]
  · simp [thud_attack, h]
  · simp [thud_troll_cap, hb, h]

theorem mutating_failures_collapse_to_code_witness :
    thud_move (some thud_new) (some cEmptyA) (some cEmptyB) = -2 :=
  (mutating_failures_collapse_to_code thud_new cEmptyA cEmptyB .IllegalMove
    (fun _ => 0) []).1 rfl

/-- Claim C3: a stationary multi-capture request in which at least one requested
direction does not point at an adjacent Troll fails, and the game state — board
and score included — is left completely unchanged; no partial capture is applied
even if other requested directions were valid. -/
theorem troll_cap_atomic (t : Thud) (src : Coord) (dirs : List Direction)
    (h : ∃ d ∈ dirs, pointsAtTroll t.board src d = false) :
    (∃ e, (Thud.troll_cap t src dirs).1 = .error e) ∧ (Thud.troll_cap t src dirs).2 = t := by
  obtain ⟨d, hd, hdf⟩ := h
  have hall : ¬ (dirs.all fun d2 => pointsAtTroll t.board src d2) = true := by
    simp only [List.all_eq_true]
    intro hforall
    have hx := hforall d hd
    rw [hdf] at hx
    exact Bool.false_ne_true hx
  unfold Thud.troll_cap
  repeat' split
  all_goals first
    | exact ⟨⟨_, rfl⟩, rfl⟩
    | exact absurd (by assumption) hall

theorem troll_cap_atomic_witness :
    (Thud.troll_cap capState cCapSrc [Direction.Left, Direction.Right]).2 = capState :=
  (troll_cap_atomic capState cCapSrc [Direction.Left, Direction.Right] (by decide)).2

/-- Claim C4: for every game state, `thud_get_board` returns a 15 by 15 grid
covering every bounding-square cell; a cell inside the octagon carries the code
of its piece under the encoding Empty 0, Dwarf 1, Troll 2, Thudstone 3, and
every cell outside the playable octagon is reported as Empty (0). -/
theorem thud_get_board_snapshot (t : Thud) (x y : Nat) (hx : x < 15) (hy : y < 15) :
    thud_get_board (some t) = some (boardGrid t) ∧
    (boardGrid t).length = 15 ∧
    (∀ row ∈ boardGrid t, row.length = 15) ∧
    ((boardGrid t).getD x []).getD y 0 =
      (match Coord.zero_based x y with
       | some c => piece_to_int (t.board.piece_at c)
       | none => 0) ∧
    (Coord.zero_based x y = none → ((boardGrid t).getD x []).getD y 0 = 0) ∧
    piece_to_int .Empty = 0 ∧ piece_to_int .Dwarf = 1 ∧
    piece_to_int .Troll = 2 ∧ piece_to_int .Thudstone = 3 := by
  refine ⟨rfl, by simp [boardGrid, Board.full_raw], ?_, boardGrid_cell t x y hx hy,
    ?_, rfl, rfl, rfl, rfl⟩
  · intro row hrow
    simp only [boardGrid, Board.full_raw, List.map_map, List.mem_map] at hrow
    obtain ⟨x2, _, hrow⟩ := hrow
    rw [← hrow]
    simp
  · intro hnone
    rw [boardGrid_cell t x y hx hy, hnone]

theorem thud_get_board_snapshot_witness :
    ((boardGrid thud_new).getD 7 []).getD 7 0 = 3 ∧
    ((boardGrid thud_new).getD 0 []).getD 0 0 = 0 := by
  constructor
  · have h := (thud_get_board_snapshot thud_new 7 7 (by decide) (by decide)).2.2.2.1
    rw [h]
    rfl
  · exact (thud_get_board_snapshot thud_new 0 0 (by decide) (by decide)).2.2.2.2.1 rfl

/-- Claim C5: `coord_new (x, y)` succeeds exactly when the zero-based pair lies
inside the legal octagon — within the 15 by 15 bounding square and outside its
four cut-off corner triangles — and returns null (`none`) otherwise; the
function is total (no crash) and pure. -/
theorem coord_new_inside_octagon (x y : Nat) :
    (coord_new x y).isSome = true ↔ x < 15 ∧ y < 15 ∧ ¬ cutCorner x y := by
  have h : (coord_new x y).isSome = true ↔ inOctagon x y = true := by
    unfold coord_new Coord.zero_based
    split <;> simp_all
  rw [h]
  simp only [inOctagon, Bool.and_eq_true, decide_eq_true_eq]
  simp only [cutCorner]
  omega

theorem coord_new_inside_octagon_witness :
    (coord_new 7 0).isSome = true ∧ (coord_new 0 0).isSome ≠ true :=
  ⟨(coord_new_inside_octagon 7 0).mpr (by simp only [cutCorner]; omega),
    fun h => by have hc := (coord_new_inside_octagon 0 0).mp h; simp only [cutCorner] at hc; omega⟩

/-- Claim C6: a newly created game is in the canonical starting layout with
Dwarf to move first — `thud_get_turn` reports 0 (Dwarf) on it and the centre
cell (7,7) of its board holds the Thudstone. -/
theorem thud_new_canonical_start :
    thud_get_turn (some thud_new) = 0 ∧ thud_new.board.piece_at cCenter = .Thudstone :=
  ⟨rfl, rfl⟩

/-- Claim C7, code-bug evidence: each query wrapper calls `Box::from_raw` on the
game pointer and lets the box drop when the function returns, so in the heap
model a single query call frees the allocation behind the pointer (slot `none`
afterwards) instead of leaving the Game available unchanged. -/
theorem queries_free_the_game_allocation :
    thud_get_turn_alloc (some thud_new) = (0, none) ∧
    thud_get_winner_alloc (some thud_new) = (3, none) ∧
    thud_get_score_alloc (some thud_new) = (some (0, 0), none) ∧
    (thud_get_board_alloc (some thud_new)).2 = none :=
  ⟨rfl, rfl, rfl, rfl⟩

/-- Claim C8: over every sequence of mutating operations applied to every game
state, both components of the cumulative score pair are monotonically
non-decreasing — no later state has a smaller Dwarf or Troll score than an
earlier one. -/
theorem score_pair_monotonic (ops : List Op) (t : Thud) :
    (Thud.score t).1 ≤ (Thud.score (applyOps t ops)).1 ∧
    (Thud.score t).2 ≤ (Thud.score (applyOps t ops)).2 := by
  induction ops generalizing t with
  | nil => exact ⟨Nat.le_refl _, Nat.le_refl _⟩
  | cons op rest ih =>
    have h1 := applyOp_score_mono t op
    have h2 := ih (applyOp t op)
    exact ⟨Nat.le_trans h1.1 h2.1, Nat.le_trans h1.2 h2.2⟩

/-- Claim C9: every exported function taking pointer arguments checks each
required pointer for null first and, when any is null, returns its designated
error value — -1 for the integer-returning functions, null (`none`) for the
pointer-returning ones — independently of every other argument, touching no
game state. -/
theorem ffi_null_pointer_checks (t? : Option Thud) (s? d? : Option Coord)
    (g? : Option (Nat → Nat)) :
    thud_move none s? d? = -1 ∧ thud_move t? none d? = -1 ∧ thud_move t? s? none = -1 ∧
    thud_attack none s? d? = -1 ∧ thud_attack t? none d? = -1 ∧ thud_attack t? s? none = -1 ∧
    thud_troll_cap none s? g? = -1 ∧ thud_troll_cap t? none g? = -1 ∧
    thud_troll_cap t? s? none = -1 ∧ thud_get_turn none = -1 ∧ thud_get_winner none = -1 ∧
    thud_get_score none = none ∧ thud_get_board none = none := by
  cases t? <;> cases s? <;> cases d? <;> cases g? <;>
    exact ⟨rfl, rfl, rfl, rfl, rfl, rfl, rfl, rfl, rfl, rfl, rfl, rfl, rfl⟩

/-- Claim C10: for non-null arguments `thud_troll_cap` never returns -3: the
direction-building loop reads exactly the first 8 array slots — two arrays that
agree there give identical results — as selection flags, direction `i` being
requested exactly when slot `i` holds 1 and every other value being skipped
without error, so `Direction::from_num` is only applied to the valid loop
indices 0 through 7. -/
theorem troll_cap_reads_flags_never_invalid (t : Thud) (s : Coord)
    (targets targets2 : Nat → Nat) (hagree : ∀ i, i < 8 → targets i = targets2 i) :
    thud_troll_cap (some t) (some s) (some targets) ≠ -3 ∧
    build_attack_dirs targets =
      .ok ((List.range 8).filterMap fun i =>
        if targets i = 1 then some (clockwiseDir i) else none) ∧
    thud_troll_cap (some t) (some s) (some targets) =
      thud_troll_cap (some t) (some s) (some targets2) := by
  have hb := build_attack_dirs_ok targets
  have hb2 := build_attack_dirs_ok targets2
  have hsame : ((List.range 8).filterMap fun i =>
        if targets i = 1 then some (clockwiseDir i) else none)
      = (List.range 8).filterMap fun i =>
        if targets2 i = 1 then some (clockwiseDir i) else none := by
    apply List.filterMap_congr
    intro i hi
    rw [hagree i (List.mem_range.mp hi)]
  refine ⟨?_, hb, ?_⟩
  · simp only [thud_troll_cap, hb]
    split <;> simp
  · simp only [thud_troll_cap, hb, hb2, hsame]

theorem troll_cap_reads_flags_never_invalid_witness :
    thud_troll_cap (some thud_new) (some cDwarfStart) (some fun _ => 1) ≠ -3 :=
  (troll_cap_reads_flags_never_invalid thud_new cDwarfStart
    (fun _ => 1) (fun _ => 1) (fun _ _ => rfl)).1
